import Mathlib

/-!
Shallow embedding of `src/langtons_ant.py` (Langton's Ant automaton).

Python lists become Lean `List`s, Python `int` becomes `Int` (Python's `%`
with a positive modulus matches `Int.emod`), and Python list indexing —
which supports negative indices and raises `IndexError` when out of range —
is modelled by `pyGet` / `pySet`, returning `Option` for fallible reads.
A method call that raises is modelled as returning `none`; exceptions in
`next` can only arise at the very first read, before any mutation, so a
`none` result leaves the automaton unchanged, matching the Python object
state after the exception propagates.

`random.choice(DIRECTION_CHOICES)` in the constructor is modelled by an
explicit extra argument `rnd : Fin 4` selecting one of the four directions:
the constructor is deterministic in all its arguments, and `rnd` is the
only stand-in for hidden randomness.
-/

/-- `Point` dataclass: the ant's (x, y) position. -/
structure Point where
  x : Int
  y : Int
deriving DecidableEq, Repr

/-- `Direction` named tuple: the ant's (x, y) heading vector. -/
structure Direction where
  x : Int
  y : Int
deriving DecidableEq, Repr

def UP : Direction := ⟨0, -1⟩

def RIGHT : Direction := ⟨1, 0⟩

def DOWN : Direction := ⟨0, 1⟩

def LEFT : Direction := ⟨-1, 0⟩

def DIRECTION_CHOICES : List Direction := [UP, RIGHT, DOWN, LEFT]

/-- Resolve a Python list index: non-negative indices are used directly,
negative indices count from the end, anything out of range is an
`IndexError` (`none`). -/
def pyIdx (len : Nat) (i : Int) : Option Nat :=
  if 0 ≤ i then
    if i < (len : Int) then some i.toNat else none
  else
    if -(len : Int) ≤ i then some (i + (len : Int)).toNat else none

/-- Python `l[i]` read. -/
def pyGet {α : Type} (l : List α) (i : Int) : Option α :=
  (pyIdx l.length i).bind fun n => l.get? n

/-- Python `l[i] = v` write; an out-of-range write would raise, but every
write in the source follows a successful read at the same index, so the
identity fallback is never reached from `next`. -/
def pySet {α : Type} (l : List α) (i : Int) (v : α) : List α :=
  match pyIdx l.length i with
  | some n => l.set n v
  | none => l

/-- Python `g[i][j]` read on a list of lists. -/
def pyGet2 {α : Type} (g : List (List α)) (i j : Int) : Option α :=
  (pyGet g i).bind fun row => pyGet row j

/-- Python `g[i][j] = v` write on a list of lists. -/
def pySet2 {α : Type} (g : List (List α)) (i j : Int) (v : α) : List (List α) :=
  match pyIdx g.length i with
  | some n =>
    match g.get? n with
    | some row => g.set n (pySet row j v)
    | none => g
  | none => g

/-- The `LangtonsAnt` object: private fields `__height`, `__width`,
`__state`, `__position`, `__direction`. -/
structure LangtonsAnt where
  height : Nat
  width : Nat
  state : List (List Bool)
  position : Point
  direction : Direction
deriving DecidableEq, Repr

/-- The clockwise turn map of `next`'s then-branch:
`Direction(self.__direction.y, -self.__direction.x)`. -/
def turnCW (d : Direction) : Direction := ⟨d.y, -d.x⟩

/-- The counter-clockwise turn map of `next`'s else-branch:
`Direction(-self.__direction.y, self.__direction.x)`. -/
def turnCCW (d : Direction) : Direction := ⟨-d.y, d.x⟩

/-- The start-position handling of `__init__`. Mirrors Python's
truthiness test `if start_position:` — an empty list is falsy and falls
through to the default centre position — then the length-2 check and the
modular reduction `Point(x=start_position[0] % width,
y=start_position[1] % height)`; the default is
`Point(x=int(width / 2), y=int(height / 2))`. -/
def langtonsAntPos (width height : Nat) (start_position : Option (List Int)) :
    Except String Point :=
  match start_position with
  | some sp =>
    if sp ≠ [] then
      if sp.length ≠ 2 then
        .error "`start_position` must contain 2 integers for ant position."
      else
        .ok ⟨(sp.getD 0 0).emod (width : Int), (sp.getD 1 0).emod (height : Int)⟩
    else
      .ok ⟨((width / 2 : Nat) : Int), ((height / 2 : Nat) : Int)⟩
  | none => .ok ⟨((width / 2 : Nat) : Int), ((height / 2 : Nat) : Int)⟩

/-- The direction handling of `__init__`: `if direction in
DIRECTION_CHOICES` keeps the argument, anything else (including `None`)
gets `random.choice(DIRECTION_CHOICES)`, modelled by the explicit
selector `rnd`. -/
def langtonsAntDir (direction : Option Direction) (rnd : Fin 4) : Direction :=
  match direction with
  | some d =>
    if d ∈ DIRECTION_CHOICES then d
    else DIRECTION_CHOICES.get ⟨rnd.1, by cases rnd with | mk v h => exact h⟩
  | none => DIRECTION_CHOICES.get ⟨rnd.1, by cases rnd with | mk v h => exact h⟩

/-- `LangtonsAnt.__init__`: validates the grid (non-empty, non-empty
first row, all rows of the first row's length, in Python's check order),
stores the grid, and sets `__height = len(initial_state)`,
`__width = len(initial_state[0])`, the reduced position and the
direction. -/
def langtonsAntInit (initial_state : List (List Bool))
    (start_position : Option (List Int)) (direction : Option Direction)
    (rnd : Fin 4) : Except String LangtonsAnt :=
  if initial_state.isEmpty then
    .error "`initial_state` must contain at least one nested list."
  else if (initial_state.headD []).length = 0 then
    .error "`initial_state` nested lists must contain at least one element."
  else if initial_state.any (fun row => (initial_state.headD []).length ≠ row.length) then
    .error "`initial_state` must contain lists with equal number of elements."
  else
    (langtonsAntPos (initial_state.headD []).length initial_state.length
        start_position).map fun pos =>
      ⟨initial_state.length, (initial_state.headD []).length, initial_state,
       pos, langtonsAntDir direction rnd⟩

/-- The record returned by the `position_and_direction` property:
`[self.__position, direction_text, self.__state[x][y]]`. -/
structure AgentState where
  position : Point
  direction_text : String
  cell : Bool
deriving DecidableEq, Repr

/-- `position_and_direction` property. The final list element reads
`self.__state[self.__position.x][self.__position.y]`, which raises
(`none`) when that double index is out of range. -/
def LangtonsAnt.position_and_direction (a : LangtonsAnt) : Option AgentState :=
  let direction_text : String :=
    if a.direction = UP then "UP"
    else if a.direction = RIGHT then "RIGHT"
    else if a.direction = DOWN then "DOWN"
    else if a.direction = LEFT then "LEFT"
    else ""
  (pyGet2 a.state a.position.x a.position.y).map fun v =>
    ⟨a.position, direction_text, v⟩

/-- `next`: read `self.__state[x][y]` (raising, i.e. `none`, when out of
range — at that point nothing has been mutated yet), turn clockwise on a
true cell and counter-clockwise on a false cell, flip the cell, then
advance the position by the new direction modulo width (x) and height
(y). -/
def LangtonsAnt.next (a : LangtonsAnt) : Option LangtonsAnt :=
  (pyGet2 a.state a.position.x a.position.y).map fun v =>
    let dir : Direction := if v then turnCW a.direction else turnCCW a.direction
    { a with
      direction := dir
      state := pySet2 a.state a.position.x a.position.y (!v)
      position := ⟨(a.position.x + dir.x).emod (a.width : Int),
                   (a.position.y + dir.y).emod (a.height : Int)⟩ }

/-- `n` consecutive calls of `next`; `none` as soon as one of them
raises. -/
def stepN (a : LangtonsAnt) : Nat → Option LangtonsAnt
  | 0 => some a
  | n + 1 => (stepN a n).bind LangtonsAnt.next

/-- Construct and then run `n` steps: `none` when construction fails or a
step raises. -/
def runAnt (initial_state : List (List Bool)) (start_position : Option (List Int))
    (direction : Option Direction) (rnd : Fin 4) (n : Nat) : Option LangtonsAnt :=
  match langtonsAntInit initial_state start_position direction rnd with
  | .ok a => stepN a n
  | .error _ => none

/-- The canonical (non-negative, non-wrapping) cell address `g[i][j]`. -/
def cellNat (g : List (List Bool)) (i j : Nat) : Option Bool :=
  (g.get? i).bind fun row => row.get? j

/-- A step changes no cell other than `(p, q)`. -/
def framePreserved (old new : List (List Bool)) (p q : Nat) : Prop :=
  ∀ i j : Nat, ¬(i = p ∧ j = q) → cellNat new i j = cellNat old i j

theorem pyGet_of_nonneg {α : Type} (l : List α) {i : Int} (h : 0 ≤ i) :
    pyGet l i = l.get? i.toNat := by
  unfold pyGet pyIdx
  rw [if_pos h]
  split
  · rfl
  · rename_i hlt
    have hlen : l.get? i.toNat = none := List.get?_eq_none.mpr (by omega)
    simp [hlen]
    omega

theorem pySet_of_nonneg {α : Type} (l : List α) {i : Int} (h : 0 ≤ i) (v : α) :
    pySet l i v = l.set i.toNat v := by
  unfold pySet pyIdx
  rw [if_pos h]
  by_cases hlt : i < (l.length : Int)
  · rw [if_pos hlt]
  · rw [if_neg hlt]
    show l = l.set i.toNat v
    exact (List.set_eq_of_length_le (by omega)).symm

theorem pyGet2_of_nonneg (g : List (List Bool)) {i j : Int} (hi : 0 ≤ i) (hj : 0 ≤ j) :
    pyGet2 g i j = cellNat g i.toNat j.toNat := by
  unfold pyGet2 cellNat
  rw [pyGet_of_nonneg g hi]
  cases hg : g.get? i.toNat with
  | none => rfl
  | some row => simp [pyGet_of_nonneg row hj]

theorem set_get?_self {α : Type} {l : List α} {n : Nat} {x : α}
    (h : l.get? n = some x) : l.set n x = l := by
  induction l generalizing n with
  | nil => simp at h
  | cons a t ih =>
    cases n with
    | zero =>
      simp only [List.get?] at h
      cases h
      rfl
    | succ m =>
      simp only [List.get?] at h
      simp only [List.set]
      rw [ih h]

theorem length_pySet {α : Type} (l : List α) (i : Int) (v : α) :
    (pySet l i v).length = l.length := by
  unfold pySet
  split
  · exact List.length_set ..
  · rfl

theorem map_length_pySet2 (g : List (List Bool)) (i j : Int) (v : Bool) :
    (pySet2 g i j v).map List.length = g.map List.length := by
  unfold pySet2
  split
  · rename_i n hn
    split
    · rename_i row hrow
      rw [List.map_set, length_pySet]
      refine set_get?_self ?_
      rw [List.get?_map, hrow]
      rfl
    · rfl
  · rfl

theorem pySet2_of_get {g : List (List Bool)} {i : Int} (hi : 0 ≤ i) {row : List Bool}
    (hrow : g.get? i.toNat = some row) (j : Int) (w : Bool) :
    pySet2 g i j w = g.set i.toNat (pySet row j w) := by
  have hilen : i.toNat < g.length := (List.get?_eq_some.mp hrow).1
  unfold pySet2
  split
  · rename_i n hn
    have hn' : n = i.toNat := by
      unfold pyIdx at hn
      rw [if_pos hi, if_pos (by omega : i < (g.length : Int))] at hn
      exact (Option.some_inj.mp hn).symm
    subst hn'
    split
    · rename_i r hr
      rw [hrow] at hr
      injection hr with hr
      rw [hr]
    · rename_i hr
      rw [hrow] at hr
      exact absurd hr (by simp)
  · rename_i hn
    unfold pyIdx at hn
    rw [if_pos hi, if_pos (by omega : i < (g.length : Int))] at hn
    exact absurd hn (by simp)

theorem pyGet2_some_bounds {g : List (List Bool)} {i j : Int} {v : Bool}
    (hi : 0 ≤ i) (hj : 0 ≤ j) (h : pyGet2 g i j = some v) :
    ∃ row, g.get? i.toNat = some row ∧ row.get? j.toNat = some v := by
  rw [pyGet2_of_nonneg g hi hj] at h
  unfold cellNat at h
  cases hg : g.get? i.toNat with
  | none => rw [hg] at h; simp at h
  | some row => rw [hg] at h; exact ⟨row, rfl, by simpa using h⟩

theorem pySet2_cell_set {g : List (List Bool)} {i j : Int} {v : Bool}
    (hi : 0 ≤ i) (hj : 0 ≤ j) (h : pyGet2 g i j = some v) (w : Bool) :
    cellNat (pySet2 g i j w) i.toNat j.toNat = some w := by
  obtain ⟨row, hrow, hcell⟩ := pyGet2_some_bounds hi hj h
  have hilen : i.toNat < g.length := (List.get?_eq_some.mp hrow).1
  have hjlen : j.toNat < row.length := (List.get?_eq_some.mp hcell).1
  rw [pySet2_of_get hi hrow j w]
  unfold cellNat
  rw [List.get?_set_eq_of_lt _ hilen, pySet_of_nonneg row hj w]
  simp only [Option.bind]
  exact List.get?_set_eq_of_lt _ (by simpa using hjlen)

theorem pySet2_cell_frame {g : List (List Bool)} {i j : Int} {v : Bool}
    (hi : 0 ≤ i) (hj : 0 ≤ j) (h : pyGet2 g i j = some v) (w : Bool) :
    framePreserved g (pySet2 g i j w) i.toNat j.toNat := by
  obtain ⟨row, hrow, hcell⟩ := pyGet2_some_bounds hi hj h
  have hilen : i.toNat < g.length := (List.get?_eq_some.mp hrow).1
  intro p q hpq
  rw [pySet2_of_get hi hrow j w]
  unfold cellNat
  by_cases hp : p = i.toNat
  · subst hp
    have hq : q ≠ j.toNat := fun hq => hpq ⟨rfl, hq⟩
    rw [List.get?_set_eq_of_lt _ hilen, hrow]
    simp only [Option.bind]
    rw [pySet_of_nonneg row hj w]
    exact List.get?_set_ne _ _ (fun hqe => hq hqe.symm)
  · rw [List.get?_set_ne _ _ (fun hpe => hp hpe.symm)]

theorem turn_closed {d : Direction} (hd : d ∈ DIRECTION_CHOICES) :
    turnCW d ∈ DIRECTION_CHOICES ∧ turnCCW d ∈ DIRECTION_CHOICES := by
  fin_cases hd <;> exact ⟨by decide, by decide⟩

theorem langtonsAntDir_mem (direction : Option Direction) (rnd : Fin 4) :
    langtonsAntDir direction rnd ∈ DIRECTION_CHOICES := by
  cases direction with
  | none =>
    simp only [langtonsAntDir]
    exact List.get_mem ..
  | some d =>
    simp only [langtonsAntDir]
    split
    · assumption
    · exact List.get_mem ..

theorem langtonsAntDir_fixed {d : Direction} (hd : d ∈ DIRECTION_CHOICES)
    (r1 r2 : Fin 4) : langtonsAntDir (some d) r1 = langtonsAntDir (some d) r2 := by
  simp only [langtonsAntDir]
  rw [if_pos hd, if_pos hd]

theorem langtonsAntPos_bounds {w h : Nat} {sp : Option (List Int)} {p : Point}
    (hw : 0 < w) (hh : 0 < h) (hp : langtonsAntPos w h sp = .ok p) :
    0 ≤ p.x ∧ p.x < (w : Int) ∧ 0 ≤ p.y ∧ p.y < (h : Int) := by
  have hdflt : 0 ≤ ((w / 2 : Nat) : Int) ∧ ((w / 2 : Nat) : Int) < (w : Int) ∧
      0 ≤ ((h / 2 : Nat) : Int) ∧ ((h / 2 : Nat) : Int) < (h : Int) := by
    have h1 : w / 2 < w := Nat.div_lt_self hw (by omega)
    have h2 : h / 2 < h := Nat.div_lt_self hh (by omega)
    refine ⟨Int.ofNat_nonneg _, ?_, Int.ofNat_nonneg _, ?_⟩ <;> exact_mod_cast ‹_›
  cases sp with
  | none =>
    simp only [langtonsAntPos] at hp
    injection hp with hp
    rw [← hp]
    exact hdflt
  | some l =>
    simp only [langtonsAntPos] at hp
    by_cases hl : l = []
    · subst hl
      rw [if_neg (fun hc => hc rfl)] at hp
      injection hp with hp
      rw [← hp]
      exact hdflt
    · rw [if_pos hl] at hp
      split at hp
      · exact absurd hp (by simp)
      · injection hp with hp
        rw [← hp]
        have hwz : (w : Int) ≠ 0 := by omega
        have hhz : (h : Int) ≠ 0 := by omega
        exact ⟨Int.emod_nonneg _ hwz, Int.emod_lt_of_pos _ (by omega),
               Int.emod_nonneg _ hhz, Int.emod_lt_of_pos _ (by omega)⟩

theorem langtonsAntInit_sound {gs : List (List Bool)} {sp : Option (List Int)}
    {d : Option Direction} {r : Fin 4} {a : LangtonsAnt}
    (h : langtonsAntInit gs sp d r = .ok a) :
    a.height = gs.length ∧ a.width = (gs.headD []).length ∧ a.state = gs ∧
    0 < a.width ∧ 0 < a.height ∧
    0 ≤ a.position.x ∧ a.position.x < (a.width : Int) ∧
    0 ≤ a.position.y ∧ a.position.y < (a.height : Int) ∧
    a.direction ∈ DIRECTION_CHOICES := by
  unfold langtonsAntInit at h
  split at h
  · exact absurd h (by simp)
  split at h
  · exact absurd h (by simp)
  split at h
  · exact absurd h (by simp)
  rename_i hne hw0 _
  cases hpos : langtonsAntPos (gs.headD []).length gs.length sp with
  | error e =>
    rw [hpos] at h
    exact absurd h (by simp [Except.map])
  | ok pos =>
  rw [hpos] at h
  simp only [Except.map] at h
  injection h with h
  have hgw : 0 < (gs.headD []).length := Nat.pos_of_ne_zero hw0
  have hgh : 0 < gs.length := by
    cases gs with
    | nil => exact absurd rfl hne
    | cons x t => simp
  have hb := langtonsAntPos_bounds hgw hgh hpos
  rw [← h]
  exact ⟨rfl, rfl, rfl, hgw, hgh, hb.1, hb.2.1, hb.2.2.1, hb.2.2.2,
         langtonsAntDir_mem d r⟩

/-- The state invariant established by construction and preserved by
`next`: fixed dimensions, in-bounds position, fixed grid shape, and a
direction drawn from the four enumerated vectors. -/
def GoodAnt (w h : Nat) (s : List Nat) (a : LangtonsAnt) : Prop :=
  a.width = w ∧ a.height = h ∧ 0 < w ∧ 0 < h ∧
  0 ≤ a.position.x ∧ a.position.x < (w : Int) ∧
  0 ≤ a.position.y ∧ a.position.y < (h : Int) ∧
  a.state.map List.length = s ∧
  a.direction ∈ DIRECTION_CHOICES

theorem init_good {gs : List (List Bool)} {sp : Option (List Int)}
    {d : Option Direction} {r : Fin 4} {a : LangtonsAnt}
    (h : langtonsAntInit gs sp d r = .ok a) :
    GoodAnt ((gs.headD []).length) gs.length (gs.map List.length) a := by
  obtain ⟨h1, h2, h3, h4, h5, h6, h7, h8, h9, h10⟩ := langtonsAntInit_sound h
  refine ⟨h2, h1, h2 ▸ h4, h1 ▸ h5, h6, ?_, h8, ?_, ?_, h10⟩
  · rw [← h2]; exact h7
  · rw [← h1]; exact h9
  · rw [h3]

theorem next_good {w h : Nat} {s : List Nat} {a b : LangtonsAnt}
    (hg : GoodAnt w h s a) (hn : a.next = some b) : GoodAnt w h s b := by
  obtain ⟨hw, hh, hw0, hh0, _, _, _, _, hs, hd⟩ := hg
  subst hw
  subst hh
  subst hs
  unfold LangtonsAnt.next at hn
  cases hv : pyGet2 a.state a.position.x a.position.y with
  | none => rw [hv] at hn; exact absurd hn (by simp)
  | some v =>
    rw [hv] at hn
    simp only [Option.map_some', Option.some.injEq] at hn
    subst hn
    refine ⟨rfl, rfl, hw0, hh0, ?_, ?_, ?_, ?_, ?_, ?_⟩
    · exact Int.emod_nonneg _ (by omega)
    · exact Int.emod_lt_of_pos _ (by omega)
    · exact Int.emod_nonneg _ (by omega)
    · exact Int.emod_lt_of_pos _ (by omega)
    · exact map_length_pySet2 ..
    · cases v with
      | true => exact (turn_closed hd).1
      | false => exact (turn_closed hd).2

theorem stepN_good {w h : Nat} {s : List Nat} {a : LangtonsAnt} {n : Nat}
    {b : LangtonsAnt} (hg : GoodAnt w h s a) (hs : stepN a n = some b) :
    GoodAnt w h s b := by
  induction n generalizing b with
  | zero =>
    simp only [stepN] at hs
    injection hs with hs
    rw [← hs]
    exact hg
  | succ m ih =>
    simp only [stepN] at hs
    cases hc : stepN a m with
    | none => rw [hc] at hs; exact absurd hs (by simp)
    | some c =>
      rw [hc] at hs
      exact next_good (ih hc) hs

theorem langtonsAntPos_error_iff {w h : Nat} {sp : Option (List Int)} :
    (∃ e, langtonsAntPos w h sp = .error e) ↔
      ∃ l, sp = some l ∧ l ≠ [] ∧ l.length ≠ 2 := by
  cases sp with
  | none =>
    simp only [langtonsAntPos]
    constructor
    · rintro ⟨e, he⟩
      exact absurd he (by simp)
    · rintro ⟨l, hl, -, -⟩
      exact absurd hl (by simp)
  | some l =>
    simp only [langtonsAntPos]
    by_cases hl : l = []
    · subst hl
      rw [if_neg (fun hc => hc rfl)]
      constructor
      · rintro ⟨e, he⟩
        exact absurd he (by simp)
      · rintro ⟨l', hl', hne, -⟩
        injection hl' with hl'
        exact (hne hl'.symm).elim
    · rw [if_pos hl]
      by_cases h2 : l.length = 2
      · rw [if_neg (fun hc => hc h2)]
        constructor
        · rintro ⟨e, he⟩
          exact absurd he (by simp)
        · rintro ⟨l', hl', -, hlen⟩
          injection hl' with hl'
          subst hl'
          exact (hlen h2).elim
      · rw [if_pos h2]
        constructor
        · intro _
          exact ⟨l, rfl, hl, h2⟩
        · intro _
          exact ⟨_, rfl⟩

/-- The 3×3 all-off grid of the spec's toroidal-wrap acceptance test. -/
def grid3 : List (List Bool) :=
  [[false, false, false], [false, false, false], [false, false, false]]

/-- The automaton built on `grid3` with start position (0,0) and
direction `UP`. -/
def ant3 : LangtonsAnt := ⟨3, 3, grid3, ⟨0, 0⟩, UP⟩

/-- The value of `ant3` after one `next` call: cell (0,0) flipped on,
direction turned to `RIGHT`, position advanced to (1,0). -/
def ant3' : LangtonsAnt :=
  ⟨3, 3, [[true, false, false], [false, false, false], [false, false, false]],
   ⟨1, 0⟩, RIGHT⟩

/-- A width-1, height-3 grid (three rows of one cell). -/
def gridW1 : List (List Bool) := [[false], [false], [false]]

/-- A validly constructed automaton on `gridW1` whose current cell read
`state[0][1]` is out of range (row 0 has a single element), so `next`
raises. -/
def antW1 : LangtonsAnt := ⟨3, 1, gridW1, ⟨0, 1⟩, UP⟩

/-- A width-3, height-2 grid (two rows of three cells). -/
def gridH2 : List (List Bool) := [[false, false, false], [false, false, false]]

/-- A validly constructed automaton on `gridH2` at x = 2: `state[2]` is
out of range (the grid has only two rows), so both `next` and
`position_and_direction` raise. -/
def antH2 : LangtonsAnt := ⟨2, 3, gridH2, ⟨2, 0⟩, UP⟩

/-- The step transition exactly as the spec's `step()` items word it, as
a definition of its own for comparison with the code's
`LangtonsAnt.next`: with `v` the boolean read at the ant's current cell,
the new direction is `(oldY, -oldX)` when `v` is true and
`(-oldY, oldX)` when `v` is false; the current cell's boolean value is
flipped; and the position advances by the new direction vector with each
axis wrapped modulo the corresponding grid dimension (x modulo W,
y modulo H). -/
def specStep (a : LangtonsAnt) (v : Bool) : LangtonsAnt :=
  let newDir : Direction :=
    if v then ⟨a.direction.y, -a.direction.x⟩ else ⟨-a.direction.y, a.direction.x⟩
  { a with
    direction := newDir
    state := pySet2 a.state a.position.x a.position.y (!v)
    position := ⟨(a.position.x + newDir.x) % (a.width : Int),
                 (a.position.y + newDir.y) % (a.height : Int)⟩ }

/-- The construction-failure condition of the amended C7: zero rows, a
zero-column first row, a row whose length deviates from the first row's,
or a non-empty supplied start position without exactly two components (a
supplied empty start-position list is falsy in Python and is treated as
omitted). -/
def specConstructionError (gs : List (List Bool)) (sp : Option (List Int)) : Prop :=
  gs = [] ∨ (gs.headD []).length = 0 ∨
  (∃ row ∈ gs, row.length ≠ (gs.headD []).length) ∨
  (∃ l, sp = some l ∧ l ≠ [] ∧ l.length ≠ 2)

/-- C1 (counterexample): the claim quantifies over every validly
constructed automaton, but on the validly constructed non-square
automaton `antW1` (width 1, height 3, position (0,1)) the read of
`state[0][1]` raises, so `next` performs no transition at all. -/
theorem c1_counterexample :
    langtonsAntInit gridW1 (some [0, 1]) (some UP) 0 = .ok antW1 ∧
    antW1.next = none :=
  ⟨rfl, rfl⟩

/-- C1 (amended): for every validly constructed automaton, whenever the
read of the current cell `state[x][y]` is in range (as on every square
grid), one call to `next` performs exactly the transition the spec
describes (`specStep`): new direction `(oldY, -oldX)` on a true cell and
`(-oldY, oldX)` on a false cell, the cell flipped, and the position
advanced by the new direction with x wrapped modulo W and y modulo H. -/
theorem c1_step_is_specified_transition (gs : List (List Bool))
    (sp : Option (List Int)) (d : Option Direction) (r : Fin 4)
    (a : LangtonsAnt) (v : Bool)
    (hinit : langtonsAntInit gs sp d r = .ok a)
    (hread : pyGet2 a.state a.position.x a.position.y = some v) :
    a.next = some (specStep a v) := by
  unfold LangtonsAnt.next specStep
  rw [hread]
  cases v <;> rfl

/-- C1 witness: the amended transition theorem applied to the concrete
3×3 automaton `ant3`, whose current cell reads `false`. -/
theorem c1_step_is_specified_transition_witness :
    ant3.next = some (specStep ant3 false) :=
  c1_step_is_specified_transition grid3 (some [0, 0]) (some UP) 0 ant3 false
    rfl rfl

/-- C2: contrary to the claim, on the validly constructed non-square
automaton `antH2` (width 3, height 2, position (2,0)) both `next` and
`position_and_direction` raise an IndexError (`state[2]` is out of
range): the code's `state[x][y]` addressing conflates the axes, the
defect the spec itself flags in its design notes. -/
theorem c2_nonsquare_indexerror :
    langtonsAntInit gridH2 (some [2, 0]) (some UP) 0 = .ok antH2 ∧
    antH2.next = none ∧ antH2.position_and_direction = none :=
  ⟨rfl, rfl, rfl⟩

/-- C3 (counterexample): on the 3×3 all-off grid with the ant at (0,0)
heading `UP`, one step turns the ant to `RIGHT` and moves it to (1,0) —
not to `LEFT` and (2,0) as the claim asserts: the code's off-cell map
`(-oldY, oldX)` sends `UP = (0,-1)` to `(1,0) = RIGHT`. -/
theorem c3_counterexample :
    langtonsAntInit grid3 (some [0, 0]) (some UP) 0 = .ok ant3 ∧
    ant3.next = some ant3' ∧
    ant3'.direction ≠ LEFT ∧ ant3'.position ≠ (⟨2, 0⟩ : Point) :=
  ⟨rfl, rfl, by decide, by decide⟩

/-- C3 (amended): on the 3×3 all-off grid with the ant at (0,0) heading
`UP`, a single step flips cell (0,0) from off to on, turns the ant (since
the cell was off) by the map `(-oldY, oldX)` to `RIGHT`, and advances to
x = (0+1) mod 3 = 1, giving final position (1,0). -/
theorem c3_amended_first_step :
    langtonsAntInit grid3 (some [0, 0]) (some UP) 0 = .ok ant3 ∧
    ant3.next = some ant3' ∧
    cellNat ant3'.state 0 0 = some true ∧
    ant3'.direction = RIGHT ∧ ant3'.position = (⟨1, 0⟩ : Point) :=
  ⟨rfl, rfl, rfl, rfl, rfl⟩

/-- C4: for every validly constructed automaton and every number of
completed `next` calls, the position satisfies 0 ≤ x < W and 0 ≤ y < H
for the construction-time dimensions W (first-row length) and H (row
count); with n = 0 this covers the state immediately after construction,
for any integer start position. -/
theorem c4_toroidal_containment (gs : List (List Bool))
    (sp : Option (List Int)) (d : Option Direction) (r : Fin 4) (n : Nat)
    (a b : LangtonsAnt)
    (hinit : langtonsAntInit gs sp d r = .ok a)
    (hrun : stepN a n = some b) :
    0 ≤ b.position.x ∧ b.position.x < ((gs.headD []).length : Int) ∧
    0 ≤ b.position.y ∧ b.position.y < (gs.length : Int) := by
  obtain ⟨-, -, -, -, h5, h6, h7, h8, -, -⟩ := stepN_good (init_good hinit) hrun
  exact ⟨h5, h6, h7, h8⟩

/-- C4 witness: containment for the concrete 3×3 run of one step. -/
theorem c4_toroidal_containment_witness :
    0 ≤ ant3'.position.x ∧ ant3'.position.x < ((grid3.headD []).length : Int) ∧
    0 ≤ ant3'.position.y ∧ ant3'.position.y < (grid3.length : Int) :=
  c4_toroidal_containment grid3 (some [0, 0]) (some UP) 0 1 ant3 ant3' rfl rfl

/-- C5: the direction of a validly constructed automaton is one of the
four enumerated vectors — after construction (supplied or defaulted,
n = 0) and after every number of completed `next` calls. -/
theorem c5_direction_closure (gs : List (List Bool))
    (sp : Option (List Int)) (d : Option Direction) (r : Fin 4) (n : Nat)
    (a b : LangtonsAnt)
    (hinit : langtonsAntInit gs sp d r = .ok a)
    (hrun : stepN a n = some b) :
    b.direction ∈ DIRECTION_CHOICES := by
  obtain ⟨-, -, -, -, -, -, -, -, -, h10⟩ := stepN_good (init_good hinit) hrun
  exact h10

/-- C5 witness: direction closure for the concrete 3×3 run of one
step. -/
theorem c5_direction_closure_witness :
    ant3'.direction ∈ DIRECTION_CHOICES :=
  c5_direction_closure grid3 (some [0, 0]) (some UP) 0 1 ant3 ant3' rfl rfl

/-- C6: the grid observed through the `state` property keeps the
construction-time dimensions — the row count and the length of every
row — after every number of completed `next` calls. -/
theorem c6_grid_shape_constant (gs : List (List Bool))
    (sp : Option (List Int)) (d : Option Direction) (r : Fin 4) (n : Nat)
    (a b : LangtonsAnt)
    (hinit : langtonsAntInit gs sp d r = .ok a)
    (hrun : stepN a n = some b) :
    b.state.length = gs.length ∧
    b.state.map List.length = gs.map List.length := by
  obtain ⟨-, -, -, -, -, -, -, -, h9, -⟩ := stepN_good (init_good hinit) hrun
  refine ⟨?_, h9⟩
  have hlen := congrArg List.length h9
  simpa using hlen

/-- C6 witness: shape constancy for the concrete 3×3 run of one step. -/
theorem c6_grid_shape_constant_witness :
    ant3'.state.length = grid3.length ∧
    ant3'.state.map List.length = grid3.map List.length :=
  c6_grid_shape_constant grid3 (some [0, 0]) (some UP) 0 1 ant3 ant3' rfl rfl

/-- C7 (counterexample): a supplied empty start-position list does not
contain exactly two components, yet construction succeeds — Python's
truthiness test `if start_position:` treats `[]` as omitted, so the
claimed "exactly when" biconditional fails. -/
theorem c7_counterexample :
    (([] : List Int).length ≠ 2) ∧
    langtonsAntInit [[false]] (some []) none 0 =
      .ok ⟨1, 1, [[false]], ⟨0, 0⟩, UP⟩ :=
  ⟨by decide, rfl⟩

/-- C7 (amended): construction fails with a validation error exactly
when the grid has zero rows, or its first row has zero columns, or some
row's length differs from the first row's, or the supplied start
position is non-empty and does not contain exactly two components (a
supplied empty start-position list is treated as omitted); the
`Except.error` result means no instance is produced. -/
theorem c7_construction_validation (gs : List (List Bool))
    (sp : Option (List Int)) (d : Option Direction) (r : Fin 4) :
    (∃ e, langtonsAntInit gs sp d r = .error e) ↔ specConstructionError gs sp := by
  unfold langtonsAntInit specConstructionError
  by_cases h1 : gs.isEmpty = true
  · rw [if_pos h1]
    constructor
    · intro _
      exact Or.inl (List.isEmpty_iff.mp h1)
    · intro _
      exact ⟨_, rfl⟩
  · rw [if_neg h1]
    have hgs : ¬gs = [] := fun hc => h1 (by rw [hc]; rfl)
    by_cases h2 : (gs.headD []).length = 0
    · rw [if_pos h2]
      constructor
      · intro _
        exact Or.inr (Or.inl h2)
      · intro _
        exact ⟨_, rfl⟩
    · rw [if_neg h2]
      by_cases h3 : gs.any (fun row => (gs.headD []).length ≠ row.length) = true
      · rw [if_pos h3]
        rw [List.any_eq_true] at h3
        obtain ⟨row, hrow, hneq⟩ := h3
        rw [decide_eq_true_eq] at hneq
        constructor
        · intro _
          exact Or.inr (Or.inr (Or.inl ⟨row, hrow, fun hc => hneq hc.symm⟩))
        · intro _
          exact ⟨_, rfl⟩
      · rw [if_neg h3]
        constructor
        · rintro ⟨e, he⟩
          cases hpos : langtonsAntPos (gs.headD []).length gs.length sp with
          | error e' =>
            exact Or.inr (Or.inr (Or.inr (langtonsAntPos_error_iff.mp ⟨e', hpos⟩)))
          | ok pos =>
            rw [hpos] at he
            exact absurd he (by simp [Except.map])
        · intro hspec
          rcases hspec with hc | hc | hc | hc
          · exact absurd hc hgs
          · exact absurd hc h2
          · exfalso
            apply h3
            rw [List.any_eq_true]
            obtain ⟨row, hrow, hlen⟩ := hc
            exact ⟨row, hrow, decide_eq_true (fun hcc => hlen hcc.symm)⟩
          · obtain ⟨e', hpos⟩ := langtonsAntPos_error_iff.mpr hc
            refine ⟨e', ?_⟩
            rw [hpos]
            rfl

/-- C8: with the start direction explicitly fixed to one of the four
enumerated vectors, the hidden random selector is never consulted: two
runs from identical initial grids and start positions agree after every
number of steps — identical grids and identical final position and
direction. -/
theorem c8_determinism (gs : List (List Bool)) (sp : Option (List Int))
    (d : Direction) (r1 r2 : Fin 4) (n : Nat)
    (hd : d ∈ DIRECTION_CHOICES) :
    runAnt gs sp (some d) r1 n = runAnt gs sp (some d) r2 n := by
  unfold runAnt
  have hinit : langtonsAntInit gs sp (some d) r1 =
      langtonsAntInit gs sp (some d) r2 := by
    unfold langtonsAntInit
    rw [langtonsAntDir_fixed hd r1 r2]
  rw [hinit]

/-- C8 witness: two seven-step runs on the 3×3 grid with direction
pinned to `UP` but different random selectors agree. -/
theorem c8_determinism_witness :
    runAnt grid3 (some [0, 0]) (some UP) 0 7 =
      runAnt grid3 (some [0, 0]) (some UP) 3 7 :=
  c8_determinism grid3 (some [0, 0]) UP 0 3 7 (by decide)

/-- C9: one completed `next` call negates exactly the cell the ant
occupied before the step, leaves every other cell unchanged
(`framePreserved`), and besides the grid mutates only the position and
direction fields — the dimensions are untouched. -/
theorem c9_single_cell_frame (a b : LangtonsAnt) (v : Bool)
    (hx : 0 ≤ a.position.x) (hy : 0 ≤ a.position.y)
    (hread : pyGet2 a.state a.position.x a.position.y = some v)
    (hstep : a.next = some b) :
    cellNat b.state a.position.x.toNat a.position.y.toNat = some (!v) ∧
    framePreserved a.state b.state a.position.x.toNat a.position.y.toNat ∧
    b.width = a.width ∧ b.height = a.height := by
  unfold LangtonsAnt.next at hstep
  rw [hread] at hstep
  simp only [Option.map_some', Option.some.injEq] at hstep
  subst hstep
  refine ⟨?_, ?_, rfl, rfl⟩
  · exact pySet2_cell_set hx hy hread (!v)
  · exact pySet2_cell_frame hx hy hread (!v)

/-- C9 witness: the frame property for the concrete step from `ant3` to
`ant3'`. -/
theorem c9_single_cell_frame_witness :
    cellNat ant3'.state 0 0 = some (!false) ∧
    framePreserved ant3.state ant3'.state 0 0 ∧
    ant3'.width = ant3.width ∧ ant3'.height = ant3.height :=
  c9_single_cell_frame ant3 ant3' false (by decide) (by decide) rfl rfl

/-- C10: on the set of the four enumerated directions the two turn maps
of `next` are mutually inverse bijections (each maps the set into itself
and undoes the other), and four successive applications of either map
are the identity. -/
theorem c10_turn_maps_inverse_bijections (d : Direction)
    (hd : d ∈ DIRECTION_CHOICES) :
    turnCW (turnCCW d) = d ∧ turnCCW (turnCW d) = d ∧
    turnCW d ∈ DIRECTION_CHOICES ∧ turnCCW d ∈ DIRECTION_CHOICES ∧
    turnCW (turnCW (turnCW (turnCW d))) = d ∧
    turnCCW (turnCCW (turnCCW (turnCCW d))) = d := by
  fin_cases hd <;> decide

/-- C10 witness: the turn-map laws at the concrete direction `UP`. -/
theorem c10_turn_maps_inverse_bijections_witness :
    turnCW (turnCCW UP) = UP ∧ turnCCW (turnCW UP) = UP ∧
    turnCW UP ∈ DIRECTION_CHOICES ∧ turnCCW UP ∈ DIRECTION_CHOICES ∧
    turnCW (turnCW (turnCW (turnCW UP))) = UP ∧
    turnCCW (turnCCW (turnCCW (turnCCW UP))) = UP :=
  c10_turn_maps_inverse_bijections UP (by decide)
